import Mathlib

/-!
Verification development for the `logam-mulia-api` multi-source gold-price
scraping pipeline.

The development shallowly embeds the core of `PricesAllService`
(`src/prices-all/prices-all.service.ts`) and `SupabaseService`
(`src/supabase/supabase.service.ts`):

* the tabular extractors (`scrapeAnekalogam`, `scrapeIndogold`,
  `scrapePegadaian`) are modelled at the level cheerio hands them data:
  a document is a list of tables, each a list of rows of cell text
  (HTML parsing itself is the boundary of the model);
* the flattened-graph extractor (`scrapeGaleri24`) is modelled over a
  JavaScript-value type `JVal`, including `undefined`, since its
  defensiveness claims are about dynamic-typing corner cases;
* JavaScript primitives used by the source (`parseFloat`, `parseInt`,
  `String.prototype.replace`, truthiness, array indexing with non-integer
  keys) are embedded explicitly; numbers are `ℚ`/`Int` (the values in
  play are exact decimals, so IEEE rounding is immaterial to the claims);
* the Supabase query layer is modelled as a pure function over a list of
  stored rows; the PostgREST `neq` filter follows SQL three-valued logic
  (a `NULL` column never satisfies `col <> x`).
-/

/-! ## JavaScript string and number primitives -/

/-- The characters matched by the regex class `\s` (ASCII part); the inputs in
scope contain no exotic Unicode whitespace. -/
def jsIsSpace (c : Char) : Bool :=
  c = ' ' || c = '\t' || c = '\n' || c = '\r' || c = '\x0b' || c = '\x0c'

/-- Numeric value of a list of ASCII digits, most significant first. -/
def digitsToNat (ds : List Char) : Nat :=
  ds.foldl (fun n c => n * 10 + (c.toNat - '0'.toNat)) 0

/-- JS `parseFloat` on a character list: skip leading whitespace, optional
sign, digits, optional fractional part, optional exponent; `none` models
`NaN` (no digit found in the prefix). -/
def parseFloatChars (cs0 : List Char) : Option ℚ :=
  let cs := cs0.dropWhile jsIsSpace
  let (sign, cs) : ℚ × List Char :=
    match cs with
    | '-' :: r => (-1, r)
    | '+' :: r => (1, r)
    | _ => (1, cs)
  let intDs := cs.takeWhile Char.isDigit
  let cs1 := cs.dropWhile Char.isDigit
  let (fracDs, cs2) : List Char × List Char :=
    match cs1 with
    | '.' :: r => (r.takeWhile Char.isDigit, r.dropWhile Char.isDigit)
    | _ => ([], cs1)
  if intDs.isEmpty && fracDs.isEmpty then none
  else
    let mant : ℚ := (digitsToNat intDs : ℚ) + (digitsToNat fracDs : ℚ) / (10 ^ fracDs.length)
    let exp : Int :=
      match cs2 with
      | e :: rest =>
        if e = 'e' || e = 'E' then
          let (es, rest') : Int × List Char :=
            match rest with
            | '-' :: r2 => (-1, r2)
            | '+' :: r2 => (1, r2)
            | _ => (1, rest)
          let eds := rest'.takeWhile Char.isDigit
          if eds.isEmpty then 0 else es * (digitsToNat eds : Int)
        else 0
      | [] => 0
    some (sign * mant * (10 : ℚ) ^ exp)

/-- JS `parseInt` (radix 10) on a character list: skip leading whitespace,
optional sign, longest digit prefix; `none` models `NaN`. The `0x` prefix of
real `parseInt` is not modelled: no input in this code base is hexadecimal. -/
def parseIntChars (cs0 : List Char) : Option Int :=
  let cs := cs0.dropWhile jsIsSpace
  let (sign, cs) : Int × List Char :=
    match cs with
    | '-' :: r => (-1, r)
    | '+' :: r => (1, r)
    | _ => (1, cs)
  let ds := cs.takeWhile Char.isDigit
  if ds.isEmpty then none else some (sign * (digitsToNat ds : Int))

/-- Is `needle` a contiguous substring of `hay`? (JS `String.prototype.includes`.) -/
def isInfixB (needle hay : List Char) : Bool :=
  match hay with
  | [] => needle.isEmpty
  | _ :: t => (needle.isPrefixOf hay) || isInfixB needle t

/-- JS `hay.includes(needle)`. -/
def containsTok (hay needle : String) : Bool :=
  isInfixB needle.data hay.data

/-- JS `String.prototype.toLowerCase()`: character-wise lowering (the inputs
in scope are ASCII, where JS and `Char.toLower` agree). -/
def jsToLower (s : String) : String :=
  ⟨s.data.map Char.toLower⟩

/-- `String.prototype.replace(/\s+/g, "-")`: every maximal run of whitespace
becomes a single hyphen. The flag records whether we are inside a run whose
hyphen has already been emitted. -/
def collapseWsAux : Bool → List Char → List Char
  | _, [] => []
  | inRun, c :: cs =>
    if jsIsSpace c then
      if inRun then collapseWsAux true cs else '-' :: collapseWsAux true cs
    else
      c :: collapseWsAux false cs

/-- `s.toLowerCase().replace(/\s+/g, "-")` — the fallback slug of `vendorToType`. -/
def slugify (s : String) : String :=
  ⟨collapseWsAux false (jsToLower s).data⟩

/-- `s.replace(",", ".")` with a string pattern replaces only the *first*
occurrence. -/
def replaceFirstCommaDot : List Char → List Char
  | [] => []
  | c :: cs => if c = ',' then '.' :: cs else c :: replaceFirstCommaDot cs

/-! ## Canonical record shapes (`PriceItem`, `ScrapeResult`, `GoldPriceHistory`) -/

/-- `PriceItem` of `prices-all.service.ts`. `weight` is a JS number (an exact
decimal in practice, embedded as `ℚ`); prices are integers. -/
structure PriceItem where
  weight : ℚ
  unit : String
  sell : Int
  buy : Int
  type : String
deriving DecidableEq, Repr

structure ScrapeMeta where
  source : String
  url : String
  lastUpdated : Option String
  scrapedAt : String
deriving DecidableEq, Repr

/-- `ScrapeResult` of `prices-all.service.ts`. -/
structure ScrapeResult where
  data : List PriceItem
  meta : ScrapeMeta
deriving DecidableEq, Repr

/-- `GoldPriceHistory` of `supabase.service.ts` as constructed by the pipeline
(the optional DB-generated `id`/`scraped_at` fields are absent on insert). -/
structure GoldPriceHistory where
  source : String
  type : String
  weight : ℚ
  sell_price : Int
  buy_price : Int
  last_updated : Option String
deriving DecidableEq, Repr

/-- A row as returned by `select *` from `gold_price_history`: a
`GoldPriceHistory` plus the DB-populated `scraped_at` ordering column
(embedded as a `Nat` timestamp). -/
structure StoredRow where
  source : String
  type : String
  weight : ℚ
  sell_price : Int
  buy_price : Int
  last_updated : Option String
  scraped_at : Nat
deriving DecidableEq, Repr

/-- `PriceWithChange` of `supabase.service.ts`. -/
structure PriceWithChange extends GoldPriceHistory where
  sell_change : Int
  buy_change : Int
deriving DecidableEq, Repr

/-! ## `vendorToType` (galeri24 vendor-name classification) -/

/-- `PricesAllService.vendorToType` on its declared domain (a string, or the
absent value that reaches it at runtime): falsy input maps to `"other"`,
otherwise the first matching substring rule of the fixed list wins, and a name
matching no rule falls back to its slug. -/
def vendorToType (vendorName : Option String) : String :=
  match vendorName with
  | none => "other"
  | some s =>
    if s = "" then "other"
    else
      let name := jsToLower s
      if containsTok name "antam" then "antam"
      else if containsTok name "ubs" then "ubs"
      else if containsTok name "baby galeri" || containsTok name "baby-galeri" then "baby-galeri24"
      else if containsTok name "galeri 24" || containsTok name "galeri24" then "galeri24"
      else if containsTok name "dinar" then "dinar-g24"
      else if containsTok name "batik" then "batik-series"
      else slugify s

/-! ## JavaScript values and the flattened-graph (NUXT) payload

`scrapeGaleri24` works on `JSON.parse` output and on the `undefined` values
produced by failed property/array lookups, so the embedding needs a JS value
type that includes `undefined`. -/

inductive JVal where
  | null
  | undefined
  | bool (b : Bool)
  | num (q : ℚ)
  | str (s : String)
  | arr (xs : List JVal)
  | obj (fields : List (String × JVal))

/-- JS truthiness. `ℚ` has no NaN; where the source can produce NaN
(`parseFloat`/`parseInt`) the embedding uses `Option` instead. -/
def jsTruthy : JVal → Bool
  | .null => false
  | .undefined => false
  | .bool b => b
  | .num q => decide (q ≠ 0)
  | .str s => decide (s ≠ "")
  | .arr _ => true
  | .obj _ => true

mutual

/-- JS `ToString` semantics as used via `parseFloat`/`parseInt` coercion.
Integer `ℚ` values print exactly as JS prints them; non-integer rationals
print as `num/den` (never exercised: JSON numbers in scope are integers or
exact decimals that the model keeps in `num` form and never stringifies). -/
def jsToString : JVal → String
  | .null => "null"
  | .undefined => "undefined"
  | .bool true => "true"
  | .bool false => "false"
  | .num q => if q.den = 1 then toString q.num else toString q
  | .str s => s
  | .arr xs => String.intercalate "," (jsToStringList xs)
  | .obj _ => "[object Object]"

/-- Array elements stringify like their value, except that `null` and
`undefined` elements become the empty string. -/
def jsToStringList : List JVal → List String
  | [] => []
  | .null :: vs => "" :: jsToStringList vs
  | .undefined :: vs => "" :: jsToStringList vs
  | v :: vs => jsToString v :: jsToStringList vs

end

/-- The array-index coercion of a JS property key: `a[k]` hits an element only
when `k` is a non-negative integer number or its canonical string form. -/
def jsToIndex : JVal → Option Nat
  | .num q => if q.den = 1 && 0 ≤ q.num then some q.num.toNat else none
  | .str s =>
    match s.toNat? with
    | some n => if toString n = s then some n else none
    | none => none
  | _ => none

/-- `store[v]` for the flat NUXT array: follow `v` as an index, `undefined`
when the key is not an in-bounds canonical index. -/
def jsIndex (store : List JVal) (v : JVal) : JVal :=
  match jsToIndex v with
  | some n => (store.get? n).getD .undefined
  | none => .undefined

/-- JS property read `v.name` on a parsed JSON value: defined only on objects,
`undefined` otherwise (primitives and arrays have none of the fields read by
this code). -/
def getField (v : JVal) (name : String) : JVal :=
  match v with
  | .obj fs => (fs.lookup name).getD .undefined
  | _ => .undefined

def isUndefB : JVal → Bool
  | .undefined => true
  | _ => false

/-- `typeof v === "object"` (true for objects, arrays and `null`). -/
def typeofIsObject : JVal → Bool
  | .obj _ => true
  | .arr _ => true
  | .null => true
  | _ => false

/-- JS `parseFloat(v)`: a number parses back to itself, anything else goes
through string coercion. `none` models NaN. The non-string primitive cases
are spelled out (their coerced strings `"null"`, `"undefined"`, `"true"`,
`"false"`, `"[object Object]"` all parse to NaN) so that the function reduces
without the well-founded `jsToString`. -/
def jsParseFloat : JVal → Option ℚ
  | .num q => some q
  | .str s => parseFloatChars s.data
  | .null => none
  | .undefined => none
  | .bool _ => none
  | .obj _ => none
  | .arr xs => parseFloatChars (jsToString (.arr xs)).data

/-- Truncation toward zero, the rounding JS `parseInt` applies to a decimal
string's digit prefix. -/
def ratTrunc (q : ℚ) : Int :=
  if 0 ≤ q then ⌊q⌋ else -⌊-q⌋

/-- JS `parseInt(v)` (radix 10). A finite number stringifies and re-parses to
its truncation toward zero (exact for the plain-notation numbers in scope);
other values go through string coercion. `none` models NaN. As with
`jsParseFloat`, the non-string primitives are spelled out by the value their
coerced string parses to. -/
def jsParseInt : JVal → Option Int
  | .num q => some (ratTrunc q)
  | .str s => parseIntChars s.data
  | .null => none
  | .undefined => none
  | .bool _ => none
  | .obj _ => none
  | .arr xs => parseIntChars (jsToString (.arr xs)).data

/-- `vendorToType` as invoked from `scrapeGaleri24` on a dynamically-typed
resolved value: a falsy argument returns `"other"`, a string is classified,
and any truthy non-string raises (`.toLowerCase` is not a function on it). -/
def vendorToTypeJ (v : JVal) : Except String String :=
  if !jsTruthy v then .ok "other"
  else
    match v with
    | .str s => .ok (vendorToType (some s))
    | _ => .error "TypeError: vendorName.toLowerCase is not a function"

/-! ## `scrapeGaleri24`: the flattened-graph extractor -/

/-- The mutable state of `scrapeGaleri24`'s extraction block after the
`try`/`catch`: the `prices` pushed so far, the `lastUpdated` variable (a JS
value, initially `null`), and whether an exception aborted the entry loop. -/
structure GalExtract where
  items : List PriceItem
  lastUpdated : JVal
  aborted : Bool

/-- The `priceObj` resolved for one entry of the `priceArray`:
`nuxtData[itemIndex]`. -/
def galPriceObj (store : List JVal) (itemIndex : JVal) : JVal :=
  jsIndex store itemIndex

/-- A named field of one price entry, after both levels of indirection:
`nuxtData[nuxtData[itemIndex].field]`. -/
def galField (store : List JVal) (itemIndex : JVal) (name : String) : JVal :=
  jsIndex store (getField (galPriceObj store itemIndex) name)

/-- One iteration of the `for (const itemIndex of priceArray)` loop: either a
thrown TypeError, or the optionally-pushed record and the updated
`lastUpdated`. -/
def galItemStep (store : List JVal) (lu : JVal) (itemIndex : JVal) :
    Except String (Option PriceItem × JVal) :=
  let priceObj := galPriceObj store itemIndex
  if jsTruthy priceObj && typeofIsObject priceObj then
    let denomination := galField store itemIndex "denomination"
    let sellingPrice := galField store itemIndex "sellingPrice"
    let buybackPrice := galField store itemIndex "buybackPrice"
    let vendorName := galField store itemIndex "vendorName"
    let date := galField store itemIndex "date"
    if jsTruthy denomination && jsTruthy sellingPrice then
      let weight? := jsParseFloat denomination
      let sell := (jsParseInt sellingPrice).getD 0
      let buy := (jsParseInt buybackPrice).getD 0
      match vendorToTypeJ vendorName with
      | .error e => .error e
      | .ok ty =>
        let item? : Option PriceItem :=
          match weight? with
          | some w => if 0 < w ∧ 0 < sell then some ⟨w, "gram", sell, buy, ty⟩ else none
          | none => none
        let lu' := if jsTruthy date && !jsTruthy lu then date else lu
        .ok (item?, lu')
    else .ok (none, lu)
  else .ok (none, lu)

/-- The entry loop. A thrown TypeError is caught by the surrounding
`try`/`catch`, so the records pushed before the throw survive while the
remaining entries are never visited. -/
def processEntries (store : List JVal) : List JVal → JVal → GalExtract
  | [], lu => ⟨[], lu, false⟩
  | i :: rest, lu =>
    match galItemStep store lu i with
    | .error _ => ⟨[], lu, true⟩
    | .ok (item?, lu') =>
      let r := processEntries store rest lu'
      ⟨item?.toList ++ r.items, r.lastUpdated, r.aborted⟩

/-- The fixed field chain from the root of the NUXT payload down to the price
entries: `nuxtData[1].data → goldPrice → priceArray`, with every hop guarded
exactly as in the source. -/
def extractGaleri24 (store : List JVal) : GalExtract :=
  if store.length > 0 then
    let dataObj := (store.get? 1).getD .undefined
    if jsTruthy dataObj && !isUndefB (getField dataObj "data") then
      let goldPriceData := jsIndex store (getField dataObj "data")
      if jsTruthy goldPriceData && !isUndefB (getField goldPriceData "goldPrice") then
        match jsIndex store (getField goldPriceData "goldPrice") with
        | .arr priceArray => processEntries store priceArray .null
        | _ => ⟨[], .null, false⟩
      else ⟨[], .null, false⟩
    else ⟨[], .null, false⟩
  else ⟨[], .null, false⟩

/-- The order `prices.sort((a, b) => a.weight - b.weight)` produces: JS `sort`
with a consistent comparator is a stable sort, and every stable sort by weight
yields the same list, so insertion sort is an exact model. -/
def sortByWeight (l : List PriceItem) : List PriceItem :=
  l.insertionSort (fun a b => a.weight ≤ b.weight)

/-- The `data` of a galeri24 scrape for a given parsed payload: the extracted
records sorted by weight (the sort runs after the `try`/`catch`, hence also on
a partially-extracted list). -/
def scrapeGaleri24Data (store : List JVal) : List PriceItem :=
  sortByWeight (extractGaleri24 store).items

/-! ## `SupabaseService`: persistence and the snapshot diff engine

The store is a list of `StoredRow`; queries are pure functions over it. -/

/-- The PostgREST filter `.neq("last_updated", v)` compiles to SQL
`last_updated <> 'v'`; under SQL three-valued logic a `NULL` column never
satisfies it, so rows with `NULL` `last_updated` are excluded as well. -/
def sqlNeqLastUpdated (lastUpdated : Option String) (v : String) : Bool :=
  match lastUpdated with
  | none => false
  | some s => decide (s ≠ v)

/-- `.order("scraped_at", { ascending: false })`. Ordering among rows with the
same `scraped_at` is not specified by the database; the model fixes a stable
sort, which the claims do not depend on. -/
def orderByScrapedAtDesc (rows : List StoredRow) : List StoredRow :=
  rows.insertionSort (fun a b => b.scraped_at ≤ a.scraped_at)

/-- The `priceMap` loop of `getPreviousPrices`: walk the ordered rows and keep
the first row seen for each weight (a JS `Map` in insertion order, embedded as
an association list). -/
def buildPrevMap : List StoredRow → List (ℚ × StoredRow) → List (ℚ × StoredRow)
  | [], m => m
  | r :: rest, m =>
    if (m.lookup r.weight).isSome then buildPrevMap rest m
    else buildPrevMap rest (m ++ [(r.weight, r)])

/-- `SupabaseService.getPreviousPrices`. `dbError = true` models a failed
select, which returns the empty map. `currentLastUpdated` is `null`-coalesced
to `""` before the `neq` filter, exactly as in the source
(`currentLastUpdated || ""`). The source's `parseFloat(price.weight)` is the
identity here because the model keeps `weight` numeric. -/
def getPreviousPrices (store : List StoredRow) (dbError : Bool)
    (source type : String) (currentLastUpdated : Option String) :
    List (ℚ × StoredRow) :=
  if dbError then []
  else
    let rows := store.filter fun r =>
      r.source = source && r.type = type &&
        sqlNeqLastUpdated r.last_updated (currentLastUpdated.getD "")
    buildPrevMap (orderByScrapedAtDesc rows) []

/-- The `pricesByType` JS `Map`: groups in first-occurrence key order, each
group's records in input order. One `Map.get`-push-`Map.set` step. -/
def addToGroup (gs : List (String × List GoldPriceHistory)) (p : GoldPriceHistory) :
    List (String × List GoldPriceHistory) :=
  match gs with
  | [] => [(p.type, [p])]
  | (t, ps) :: rest =>
    if t = p.type then (t, ps ++ [p]) :: rest else (t, ps) :: addToGroup rest p

def groupByType (cps : List GoldPriceHistory) : List (String × List GoldPriceHistory) :=
  cps.foldl addToGroup []

/-- `SupabaseService.getPricesWithChange`: group the current records by type,
look up the latest prior snapshot per weight for each group (excluding the
group's own `last_updated`), and attach signed deltas — 0 when no prior
snapshot exists. -/
def getPricesWithChange (store : List StoredRow) (dbError : Bool)
    (source : String) (currentPrices : List GoldPriceHistory) : List PriceWithChange :=
  if currentPrices.isEmpty then []
  else
    (groupByType currentPrices).flatMap fun g =>
      let lastUpdated := g.2.head?.bind (·.last_updated)
      let previousPrices := getPreviousPrices store dbError source g.1 lastUpdated
      g.2.map fun p =>
        match previousPrices.lookup p.weight with
        | some prevPrice =>
          { toGoldPriceHistory := p,
            sell_change := p.sell_price - prevPrice.sell_price,
            buy_change := p.buy_price - prevPrice.buy_price }
        | none => { toGoldPriceHistory := p, sell_change := 0, buy_change := 0 }

/-- `SupabaseService.savePrices`: an empty batch skips the write; a failed
upsert is logged (`.ok` with the console message) and never thrown — the
function cannot produce `.error`. `dbWriteError` is the upsert's error
outcome. -/
def savePricesCall (prices : List GoldPriceHistory) (dbWriteError : Option String) :
    Except String (List String) :=
  if prices.length = 0 then .ok []
  else
    match dbWriteError with
    | some e => .ok ["Error saving prices to Supabase: " ++ e]
    | none => .ok []

/-! ## Tabular extractors

A document is modelled at the shape cheerio hands the loops: a list of tables,
each carrying the text of its nearest section heading and the cell texts of
its body rows. The free-text "last updated" regexes operate outside the table
loops and are carried as pre-extracted fields of the document model. -/

structure AnekaTable where
  sectionTitle : String
  rows : List (List String)
deriving DecidableEq, Repr

structure AnekaDoc where
  lastUpdated : Option String
  tables : List AnekaTable
deriving DecidableEq, Repr

structure IndoDoc where
  lastUpdated : Option String
  tables : List (List (List String))
deriving DecidableEq, Repr

structure PegaDoc where
  tables : List (List (List String))
deriving DecidableEq, Repr

/-- Group 1 of `/([\d.,]+)\s*(?:gram|gr|g)?/i`: since the unit suffix is
optional and nothing else follows, the match is the first maximal run of
digits, dots and commas; no run at all means no match. -/
def isNumTokChar (c : Char) : Bool :=
  c.isDigit || c = '.' || c = ','

def firstNumRun (s : String) : Option String :=
  match s.data.dropWhile (fun c => !isNumTokChar c) with
  | [] => none
  | cs => some ⟨cs.takeWhile isNumTokChar⟩

/-- Group 1 of `/([\d.,]+)\s*(?:gram|gr|g)/i` (unit required): the leftmost
token run that is followed, after optional whitespace, by a `g` (the `g`
alternative of `gram|gr|g` subsumes the others). Shortening a greedy run
cannot help — the dropped characters are `[\d.,]`, never `g` — so the engine
effectively advances one position at a time; the fuel bounds that scan. -/
def runFollowedByUnit (run rest : List Char) : Bool :=
  match (rest.dropWhile jsIsSpace).head? with
  | some c => (c.toLower = 'g' : Bool) && !run.isEmpty
  | none => false

def firstNumRunUnitAux : Nat → List Char → Option (List Char)
  | 0, _ => none
  | _ + 1, [] => none
  | fuel + 1, cs =>
    match cs.dropWhile (fun c => !isNumTokChar c) with
    | [] => none
    | c1 :: t1 =>
      let run := (c1 :: t1).takeWhile isNumTokChar
      let rest := (c1 :: t1).drop run.length
      if runFollowedByUnit run rest then some run
      else firstNumRunUnitAux fuel t1

def firstNumRunUnit (s : String) : Option String :=
  (firstNumRunUnitAux (s.data.length + 1) s.data).map fun cs => ⟨cs⟩

/-- `$(cells[i]).text().replace(/[^\d]/g, "")` then `parseInt(..) || 0`. -/
def priceFromCell (cell : String) : Int :=
  (parseIntChars (cell.data.filter Char.isDigit)).getD 0

/-- `parseFloat(tok.replace(",", "."))` for a weight token. -/
def weightFromTok (tok : String) : Option ℚ :=
  parseFloatChars (replaceFirstCommaDot tok.data)

/-- The section-heading classification of an anekalogam table. -/
def anekaTableType (sectionTitle : String) : String :=
  let t := jsToLower sectionTitle
  if containsTok t "certicard" || containsTok t "reinvented" then "antam-certicard"
  else if containsTok t "edisi lama" || containsTok t "old edition" then "antam-old"
  else "antam"

/-- One `tbody tr` of an anekalogam table: rows with fewer than three cells,
rows without a weight token, and rows failing the validity guard
`weight > 0 && (sell > 0 || buy > 0)` produce nothing. -/
def anekaRow (tableType : String) (cells : List String) : Option PriceItem :=
  if cells.length ≥ 3 then
    match firstNumRun (cells.getD 0 "").trim with
    | some tok =>
      let sell := priceFromCell (cells.getD 1 "")
      let buy := priceFromCell (cells.getD 2 "")
      match weightFromTok tok with
      | some weight =>
        if 0 < weight ∧ (0 < sell ∨ 0 < buy) then
          some ⟨weight, "gram", sell, buy, tableType⟩
        else none
      | none => none
    | none => none
  else none

/-- The table loops of `scrapeAnekalogam`. -/
def anekalogamExtract (tables : List AnekaTable) : List PriceItem :=
  tables.flatMap fun t => t.rows.filterMap (anekaRow (anekaTableType t.sectionTitle))

/-- One `tr` of an indogold table: the weight regex requires a unit; a 3-cell
row reads sell and buy, a 2-cell row reads only sell; guard
`weight > 0 && sell > 0`. -/
def indogoldRow (cells : List String) : Option PriceItem :=
  if cells.length ≥ 2 then
    match firstNumRunUnit (cells.getD 0 "").trim with
    | some tok =>
      let (sell, buy) : Int × Int :=
        if cells.length ≥ 3 then
          (priceFromCell (cells.getD 1 ""), priceFromCell (cells.getD 2 ""))
        else (priceFromCell (cells.getD 1 ""), 0)
      match weightFromTok tok with
      | some weight =>
        if 0 < weight ∧ 0 < sell then some ⟨weight, "gram", sell, buy, "antam"⟩ else none
      | none => none
    | none => none
  else none

def indogoldExtract (tables : List (List (List String))) : List PriceItem :=
  tables.flatMap fun rows => rows.filterMap indogoldRow

/-- One `tbody tr` of a pegadaian table: weight regex with required unit, one
price cell, `buy` fixed at 0; guard `weight > 0 && sell > 0`. -/
def pegadaianRow (cells : List String) : Option PriceItem :=
  if cells.length ≥ 2 then
    match firstNumRunUnit (cells.getD 0 "").trim with
    | some tok =>
      let sell := priceFromCell (cells.getD 1 "")
      match weightFromTok tok with
      | some weight =>
        if 0 < weight ∧ 0 < sell then some ⟨weight, "gram", sell, 0, "pegadaian"⟩ else none
      | none => none
    | none => none
  else none

def pegadaianExtract (tables : List (List (List String))) : List PriceItem :=
  tables.flatMap fun rows => rows.filterMap pegadaianRow

/-! ## The pipeline orchestrator (`scrapeAll`)

A run's environment fixes the documents each source URL would serve, the
wall-clock instant, and the outcome of the database upsert. Each scraper
returns its result together with the list of URLs it fetched, so "the fetch
collaborator receives zero calls" is a statement about that list. Fetch
transport failures propagate out of the orchestrator unchanged and are
outside this model (the environment serves every URL). -/

structure Env where
  anekaDoc : AnekaDoc
  indoDoc : IndoDoc
  pegaDoc : PegaDoc
  galeriNuxt : Option JVal
  now : String
  dbWriteError : Option String

def anekalogamUrl : String := "https://www.anekalogam.co.id/id/logam-mulia"
def indogoldUrl : String := "https://www.indogold.id/harga-emas-hari-ini"
def pegadaianUrl : String := "https://www.pegadaian.co.id/harga"
def galeri24Url : String := "https://galeri24.co.id/harga-emas"

def scrapeAnekalogamRun (env : Env) : ScrapeResult × List String :=
  ({ data := anekalogamExtract env.anekaDoc.tables,
     meta := { source := "anekalogam", url := anekalogamUrl,
               lastUpdated := env.anekaDoc.lastUpdated, scrapedAt := env.now } },
   [anekalogamUrl])

def scrapeIndogoldRun (env : Env) : ScrapeResult × List String :=
  ({ data := indogoldExtract env.indoDoc.tables,
     meta := { source := "indogold", url := indogoldUrl,
               lastUpdated := env.indoDoc.lastUpdated, scrapedAt := env.now } },
   [indogoldUrl])

/-- `scrapePegadaian` declares `lastUpdated` and never assigns it: the meta
field is always `null`. -/
def scrapePegadaianRun (env : Env) : ScrapeResult × List String :=
  ({ data := pegadaianExtract env.pegaDoc.tables,
     meta := { source := "pegadaian", url := pegadaianUrl,
               lastUpdated := none, scrapedAt := env.now } },
   [pegadaianUrl])

/-- `scrapeGaleri24`: a missing `__NUXT_DATA__` script, a JSON parse failure,
or a non-array/empty payload all leave `prices` empty. On real payloads the
page's `date` is a string; a truthy non-string `date` would be carried as-is
by the source and is projected to `none` here (no claim reads it). -/
def scrapeGaleri24Run (env : Env) : ScrapeResult × List String :=
  let ex : GalExtract :=
    match env.galeriNuxt with
    | some (.arr store) => extractGaleri24 store
    | _ => ⟨[], .null, false⟩
  ({ data := sortByWeight ex.items,
     meta := { source := "galeri24", url := galeri24Url,
               lastUpdated := match ex.lastUpdated with | .str s => some s | _ => none,
               scrapedAt := env.now } },
   [galeri24Url])

def supportedSitesText : String := "anekalogam, indogold, pegadaian, galeri24"

/-- The error thrown by `scrapeAll`'s `default` branch. -/
def unsupportedMessage (site : String) : String :=
  "Site \"" ++ site ++ "\" is not supported for full price scraping. Supported sites: " ++
    supportedSitesText

/-- `if (type) { result.data = result.data.filter(item => item.type === type) }`
— note a supplied *empty* string is falsy in JS and disables the filter. -/
def applyTypeFilter (type? : Option String) (r : ScrapeResult) : ScrapeResult :=
  match type? with
  | some t => if t = "" then r else { r with data := r.data.filter fun item => item.type = t }
  | none => r

/-- The per-item record mapping of `savePricesToDatabase`. -/
def toHistory (meta : ScrapeMeta) (item : PriceItem) : GoldPriceHistory :=
  { source := meta.source, type := item.type, weight := item.weight,
    sell_price := item.sell, buy_price := item.buy, last_updated := meta.lastUpdated }

/-- Everything observable about one `scrapeAll` call: the value returned to
the caller, the records handed to the persistence collaborator, and the
console messages logged by the save path. -/
structure RunOutput where
  result : ScrapeResult
  persisted : List GoldPriceHistory
  saveLog : List String
deriving DecidableEq, Repr

/-- The tail of `scrapeAll` after the `switch`: mutate `result.data` through
the type filter, then dispatch `savePricesToDatabase(result)` on the (already
filtered) result; a rejected save promise is caught and logged. -/
def finishRun (env : Env) (r0 : ScrapeResult) (type? : Option String) : RunOutput :=
  let r := applyTypeFilter type? r0
  let persisted := r.data.map (toHistory r.meta)
  let saveLog :=
    match savePricesCall persisted env.dbWriteError with
    | .ok msgs => msgs
    | .error e => ["Failed to save prices to database: " ++ e]
  { result := r, persisted := persisted, saveLog := saveLog }

/-- `PricesAllService.scrapeAll`. The first component is the caller's view
(the thrown error for an unknown site); the second lists the URLs fetched
during the call — the `default` branch throws before any fetch. -/
def scrapeAllRun (env : Env) (site : String) (type? : Option String) :
    Except String RunOutput × List String :=
  match site with
  | "anekalogam" =>
    let (r, calls) := scrapeAnekalogamRun env
    (.ok (finishRun env r type?), calls)
  | "indogold" =>
    let (r, calls) := scrapeIndogoldRun env
    (.ok (finishRun env r type?), calls)
  | "pegadaian" =>
    let (r, calls) := scrapePegadaianRun env
    (.ok (finishRun env r type?), calls)
  | "galeri24" =>
    let (r, calls) := scrapeGaleri24Run env
    (.ok (finishRun env r type?), calls)
  | _ => (.error (unsupportedMessage site), [])

/-! ## Claims -/

/-- C9: `vendorToType` maps an absent or empty vendor name to `"other"`;
otherwise it matches the lowercased name against the fixed ordered substring
rule list with the first match winning — in particular a name containing
"baby galeri" (and not hitting the earlier "antam"/"ubs" rules) classifies as
`"baby-galeri24"` no matter what later rules would also match — and a name
matching no rule at all maps to its lowercased, whitespace-hyphenated slug. -/
theorem vendorToType_rules :
    vendorToType none = "other" ∧ vendorToType (some "") = "other" ∧
    (∀ s : String, containsTok (jsToLower s) "antam" = false →
      containsTok (jsToLower s) "ubs" = false →
      (containsTok (jsToLower s) "baby galeri" = true ∨ containsTok (jsToLower s) "baby-galeri" = true) →
      vendorToType (some s) = "baby-galeri24") ∧
    (∀ s : String, s ≠ "" →
      containsTok (jsToLower s) "antam" = false → containsTok (jsToLower s) "ubs" = false →
      containsTok (jsToLower s) "baby galeri" = false → containsTok (jsToLower s) "baby-galeri" = false →
      containsTok (jsToLower s) "galeri 24" = false → containsTok (jsToLower s) "galeri24" = false →
      containsTok (jsToLower s) "dinar" = false → containsTok (jsToLower s) "batik" = false →
      vendorToType (some s) = slugify s) := by
  refine ⟨rfl, rfl, ?_, ?_⟩
  · intro s h1 h2 h3
    by_cases hs : s = ""
    · subst hs
      rcases h3 with h3 | h3 <;> exact absurd h3 (by decide)
    · simp only [vendorToType, hs, if_false, h1, h2]
      rcases h3 with h3 | h3 <;> simp [h3]
  · intro s hs h1 h2 h3 h4 h5 h6 h7 h8
    simp [vendorToType, hs, h1, h2, h3, h4, h5, h6, h7, h8]

/-- Witness for C9 at concrete vendor names: the first-match-wins example of
the claim (a "baby galeri" name that also contains "galeri 24") and a
no-rule name falling back to the slug. -/
theorem vendorToType_rules_witness :
    vendorToType (some "Baby Galeri 24") = "baby-galeri24" ∧
    vendorToType (some "Lotus Archi Gold") = "lotus-archi-gold" := by
  constructor
  · exact vendorToType_rules.2.2.1 "Baby Galeri 24" (by decide) (by decide)
      (Or.inl (by decide))
  · exact (vendorToType_rules.2.2.2 "Lotus Archi Gold" (by decide) (by decide) (by decide)
      (by decide) (by decide) (by decide) (by decide) (by decide) (by decide)).trans (by decide)

set_option maxRecDepth 200000 in
/-- C8: the anekalogam tabular extractor on the two-row table of the spec's
end-to-end example yields exactly the two expected records under category
"antam"; a row whose price cell is empty parses its price to 0 (and survives
on the strength of the other price). -/
theorem anekalogam_two_row_extraction :
    anekalogamExtract
        [⟨"Harga Emas Antam",
          [["1 gram", "Rp 1.000.000", "Rp 950.000"],
           ["5 gram", "Rp 5.000.000", "Rp 4.750.000"]]⟩] =
      [⟨1, "gram", 1000000, 950000, "antam"⟩, ⟨5, "gram", 5000000, 4750000, "antam"⟩] ∧
    anekalogamExtract [⟨"", [["2 gram", "", "Rp 1.900.000"]]⟩] =
      [⟨2, "gram", 0, 1900000, "antam"⟩] :=
  ⟨by with_unfolding_all rfl, by with_unfolding_all rfl⟩

theorem strData_append (a b : String) : (a ++ b).data = a.data ++ b.data := by
  cases a; cases b; rfl

/-- An environment with trivially empty documents, for concrete witnesses. -/
def envEmpty : Env :=
  { anekaDoc := { lastUpdated := none, tables := [] },
    indoDoc := { lastUpdated := none, tables := [] },
    pegaDoc := { tables := [] },
    galeriNuxt := none,
    now := "",
    dbWriteError := none }

/-- C5: a site selector outside the supported set makes `scrapeAll` throw the
`UnsupportedSource` error — whose message names the offending selector and
lists the supported sources — without fetching anything: the list of URLs
fetched during the call is empty. -/
theorem unsupported_site_rejected (env : Env) (site : String) (type? : Option String)
    (h : site ∉ (["anekalogam", "indogold", "pegadaian", "galeri24"] : List String)) :
    scrapeAllRun env site type? = (.error (unsupportedMessage site), []) ∧
    site.data <:+: (unsupportedMessage site).data ∧
    supportedSitesText.data <:+: (unsupportedMessage site).data := by
  refine ⟨?_, ?_, ?_⟩
  · unfold scrapeAllRun
    split <;> simp_all
  · exact ⟨"Site \"".data,
      ("\" is not supported for full price scraping. Supported sites: " ++
        supportedSitesText).data,
      by simp [unsupportedMessage, strData_append]⟩
  · exact ⟨("Site \"" ++ site ++
        "\" is not supported for full price scraping. Supported sites: ").data, [],
      by simp [unsupportedMessage, strData_append]⟩

/-- Witness for C5 at the spec's example selector `"foo"`. -/
theorem unsupported_site_rejected_witness :
    scrapeAllRun envEmpty "foo" none = (.error (unsupportedMessage "foo"), []) ∧
    "foo".data <:+: (unsupportedMessage "foo").data ∧
    supportedSitesText.data <:+: (unsupportedMessage "foo").data :=
  unsupported_site_rejected envEmpty "foo" none (by decide)

/-- C6: the outcome of the persistence write is invisible to the caller of
`scrapeAll` — the returned result (and the set of fetched URLs) is identical
whether the upsert fails or succeeds — and `savePrices` itself never throws on
a store error (it always returns `.ok`, logging instead). -/
theorem persistence_failure_invisible :
    (∀ (env : Env) (site : String) (type? : Option String) (e : Option String),
      (scrapeAllRun { env with dbWriteError := e } site type?).1.map RunOutput.result =
        (scrapeAllRun { env with dbWriteError := none } site type?).1.map RunOutput.result ∧
      (scrapeAllRun { env with dbWriteError := e } site type?).2 =
        (scrapeAllRun { env with dbWriteError := none } site type?).2) ∧
    (∀ (prices : List GoldPriceHistory) (e : Option String),
      (savePricesCall prices e).isOk = true) := by
  constructor
  · intro env site type? e
    unfold scrapeAllRun
    split <;>
      simp [scrapeAnekalogamRun, scrapeIndogoldRun, scrapePegadaianRun, scrapeGaleri24Run,
        finishRun, Except.map]
  · intro prices e
    unfold savePricesCall
    split
    · rfl
    · cases e <;> rfl

/-- The `switch` of `scrapeAll` in isolation: the scraper a site dispatches
to, or `none` for an unsupported site. -/
def rawScrape (env : Env) (site : String) : Option (ScrapeResult × List String) :=
  match site with
  | "anekalogam" => some (scrapeAnekalogamRun env)
  | "indogold" => some (scrapeIndogoldRun env)
  | "pegadaian" => some (scrapePegadaianRun env)
  | "galeri24" => some (scrapeGaleri24Run env)
  | _ => none

theorem scrapeAllRun_eq (env : Env) (site : String) (type? : Option String) :
    scrapeAllRun env site type? =
      match rawScrape env site with
      | some (r, calls) => (.ok (finishRun env r type?), calls)
      | none => (.error (unsupportedMessage site), []) := by
  unfold scrapeAllRun rawScrape
  split <;> rfl

/-- An anekalogam document with two tables of different categories, for the
C1 counterexample: one plain table ("antam") and one certicard table. -/
def envTwoTables : Env :=
  { envEmpty with
    anekaDoc :=
      { lastUpdated := some "28 January 2026 14.02",
        tables :=
          [⟨"Emas Batangan", [["1 gram", "Rp 1.000.000", "Rp 950.000"]]⟩,
           ⟨"Antam Certicard Reinvented", [["1 gram", "Rp 1.100.000", "Rp 1.050.000"]]⟩] } }

/-- Counterexample to C1 as stated: on a document normalizing to two records
of types "antam" and "antam-certicard", a run filtered to "antam" hands the
persistence collaborator only the filtered record — not the full unfiltered
normalized set (which the unfiltered run of the same document exhibits). The
source filters `result.data` in place before `savePricesToDatabase(result)`
runs. -/
theorem filter_before_persist_cex :
    (scrapeAllRun envTwoTables "anekalogam" (some "antam")).1.map RunOutput.persisted =
      .ok [⟨"anekalogam", "antam", 1, 1000000, 950000, some "28 January 2026 14.02"⟩] ∧
    (scrapeAllRun envTwoTables "anekalogam" none).1.map
        (fun o => o.result.data.map (toHistory o.result.meta)) =
      .ok [⟨"anekalogam", "antam", 1, 1000000, 950000, some "28 January 2026 14.02"⟩,
           ⟨"anekalogam", "antam-certicard", 1, 1100000, 1050000,
             some "28 January 2026 14.02"⟩] ∧
    (scrapeAllRun envTwoTables "anekalogam" (some "antam")).1.map RunOutput.persisted ≠
      (scrapeAllRun envTwoTables "anekalogam" none).1.map
        (fun o => o.result.data.map (toHistory o.result.meta)) := by
  have h1 : (scrapeAllRun envTwoTables "anekalogam" (some "antam")).1.map RunOutput.persisted =
      .ok [⟨"anekalogam", "antam", 1, 1000000, 950000, some "28 January 2026 14.02"⟩] := by
    with_unfolding_all rfl
  have h2 : (scrapeAllRun envTwoTables "anekalogam" none).1.map
        (fun o => o.result.data.map (toHistory o.result.meta)) =
      .ok [⟨"anekalogam", "antam", 1, 1000000, 950000, some "28 January 2026 14.02"⟩,
           ⟨"anekalogam", "antam-certicard", 1, 1100000, 1050000,
             some "28 January 2026 14.02"⟩] := by
    with_unfolding_all rfl
  refine ⟨h1, h2, ?_⟩
  rw [h1, h2]
  simp

/-- C1 (amended): with a (non-empty) category filter, the records returned to
the caller are exactly the normalized records whose category equals the
filter; but the record set handed to the persistence collaborator equals the
*filtered* returned set (mapped to history rows), not the unfiltered
normalized set — the filter runs before the save is dispatched. -/
theorem filter_is_view_but_persist_filtered (env : Env) (site tv : String)
    (out out0 : RunOutput) (calls calls0 : List String) (htv : tv ≠ "")
    (h : scrapeAllRun env site (some tv) = (.ok out, calls))
    (h0 : scrapeAllRun env site none = (.ok out0, calls0)) :
    out.result.data = out0.result.data.filter (fun item => item.type = tv) ∧
    out.persisted = out.result.data.map (toHistory out.result.meta) := by
  rw [scrapeAllRun_eq] at h h0
  rcases hr : rawScrape env site with _ | ⟨r0, calls1⟩ <;> rw [hr] at h h0
  · simp at h
  · simp only [Prod.mk.injEq, Except.ok.injEq] at h h0
    rcases h with ⟨rfl, rfl⟩
    rcases h0 with ⟨rfl, rfl⟩
    simp [finishRun, applyTypeFilter, htv]

/-- The observable output of the filtered run on `envTwoTables`. -/
def outFilteredTwoTables : RunOutput :=
  { result :=
      { data := [⟨1, "gram", 1000000, 950000, "antam"⟩],
        meta := { source := "anekalogam", url := anekalogamUrl,
                  lastUpdated := some "28 January 2026 14.02", scrapedAt := "" } },
    persisted := [⟨"anekalogam", "antam", 1, 1000000, 950000, some "28 January 2026 14.02"⟩],
    saveLog := [] }

/-- The observable output of the unfiltered run on `envTwoTables`. -/
def outUnfilteredTwoTables : RunOutput :=
  { result :=
      { data := [⟨1, "gram", 1000000, 950000, "antam"⟩,
                 ⟨1, "gram", 1100000, 1050000, "antam-certicard"⟩],
        meta := { source := "anekalogam", url := anekalogamUrl,
                  lastUpdated := some "28 January 2026 14.02", scrapedAt := "" } },
    persisted := [⟨"anekalogam", "antam", 1, 1000000, 950000, some "28 January 2026 14.02"⟩,
                  ⟨"anekalogam", "antam-certicard", 1, 1100000, 1050000,
                    some "28 January 2026 14.02"⟩],
    saveLog := [] }

/-- Witness for the amended C1 at the concrete two-table document. -/
theorem filter_is_view_but_persist_filtered_witness :
    scrapeAllRun envTwoTables "anekalogam" (some "antam") =
      (.ok outFilteredTwoTables, [anekalogamUrl]) ∧
    scrapeAllRun envTwoTables "anekalogam" none =
      (.ok outUnfilteredTwoTables, [anekalogamUrl]) ∧
    outFilteredTwoTables.result.data =
      outUnfilteredTwoTables.result.data.filter (fun item => item.type = "antam") ∧
    outFilteredTwoTables.persisted =
      outFilteredTwoTables.result.data.map (toHistory outFilteredTwoTables.result.meta) := by
  have h : scrapeAllRun envTwoTables "anekalogam" (some "antam") =
      (.ok outFilteredTwoTables, [anekalogamUrl]) := by with_unfolding_all rfl
  have h0 : scrapeAllRun envTwoTables "anekalogam" none =
      (.ok outUnfilteredTwoTables, [anekalogamUrl]) := by with_unfolding_all rfl
  have hmain := filter_is_view_but_persist_filtered envTwoTables "anekalogam" "antam"
    outFilteredTwoTables outUnfilteredTwoTables [anekalogamUrl] [anekalogamUrl]
    (by decide) h h0
  exact ⟨h, h0, hmain.1, hmain.2⟩

theorem anekaRow_valid {ty : String} {cells : List String} {item : PriceItem}
    (h : anekaRow ty cells = some item) :
    0 < item.weight ∧ (0 < item.sell ∨ 0 < item.buy) := by
  unfold anekaRow at h
  repeat split at h
  all_goals simp_all
  obtain ⟨hc, rfl⟩ := h
  exact hc

theorem indogoldRow_valid {cells : List String} {item : PriceItem}
    (h : indogoldRow cells = some item) :
    0 < item.weight ∧ (0 < item.sell ∨ 0 < item.buy) := by
  unfold indogoldRow at h
  repeat split at h
  all_goals simp_all
  subst h
  refine ⟨?_, Or.inl ?_⟩ <;> simp_all

theorem pegadaianRow_valid {cells : List String} {item : PriceItem}
    (h : pegadaianRow cells = some item) :
    0 < item.weight ∧ (0 < item.sell ∨ 0 < item.buy) := by
  unfold pegadaianRow at h
  repeat split at h
  all_goals simp_all
  obtain ⟨hc, rfl⟩ := h
  exact ⟨hc.1, Or.inl hc.2⟩

theorem galItemStep_valid {store : List JVal} {lu i : JVal} {item : PriceItem} {lu' : JVal}
    (h : galItemStep store lu i = .ok (some item, lu')) :
    0 < item.weight ∧ (0 < item.sell ∨ 0 < item.buy) := by
  unfold galItemStep at h
  dsimp only at h
  split at h
  · split at h
    · split at h
      · simp at h
      · simp only [Except.ok.injEq, Prod.mk.injEq] at h
        obtain ⟨hi, -⟩ := h
        split at hi
        · split at hi
          · simp only [Option.some.injEq] at hi
            subst hi
            refine ⟨?_, Or.inl ?_⟩ <;> simp_all
          · simp at hi
        · simp at hi
    · simp at h
  · simp at h

theorem processEntries_valid {store : List JVal} :
    ∀ {items : List JVal} {lu : JVal} {item : PriceItem},
      item ∈ (processEntries store items lu).items →
      0 < item.weight ∧ (0 < item.sell ∨ 0 < item.buy) := by
  intro items
  induction items with
  | nil => intro lu item h; simp [processEntries] at h
  | cons i rest ih =>
    intro lu item h
    unfold processEntries at h
    split at h
    · simp at h
    · rename_i step item? lu' hstep
      simp only [List.mem_append] at h
      rcases h with h | h
      · rcases item? with _ | it
        · simp at h
        · simp only [Option.toList_some, List.mem_singleton] at h
          subst h
          exact galItemStep_valid hstep
      · exact ih h

/-- C4: every record any of the four extractors emits satisfies the validity
invariant `weight > 0 ∧ (sellPrice > 0 ∨ buyPrice > 0)`. Rows failing the
guard are dropped inside the row loops (the extractors are total functions
into record lists; no error channel exists for a dropped row). -/
theorem extract_validity :
    (∀ (tables : List AnekaTable) (item : PriceItem),
      item ∈ anekalogamExtract tables → 0 < item.weight ∧ (0 < item.sell ∨ 0 < item.buy)) ∧
    (∀ (tables : List (List (List String))) (item : PriceItem),
      item ∈ indogoldExtract tables → 0 < item.weight ∧ (0 < item.sell ∨ 0 < item.buy)) ∧
    (∀ (tables : List (List (List String))) (item : PriceItem),
      item ∈ pegadaianExtract tables → 0 < item.weight ∧ (0 < item.sell ∨ 0 < item.buy)) ∧
    (∀ (store : List JVal) (item : PriceItem),
      item ∈ scrapeGaleri24Data store → 0 < item.weight ∧ (0 < item.sell ∨ 0 < item.buy)) := by
  refine ⟨?_, ?_, ?_, ?_⟩
  · intro tables item h
    unfold anekalogamExtract at h
    simp only [List.mem_flatMap, List.mem_filterMap] at h
    obtain ⟨t, -, row, -, hrow⟩ := h
    exact anekaRow_valid hrow
  · intro tables item h
    unfold indogoldExtract at h
    simp only [List.mem_flatMap, List.mem_filterMap] at h
    obtain ⟨rows, -, row, -, hrow⟩ := h
    exact indogoldRow_valid hrow
  · intro tables item h
    unfold pegadaianExtract at h
    simp only [List.mem_flatMap, List.mem_filterMap] at h
    obtain ⟨rows, -, row, -, hrow⟩ := h
    exact pegadaianRow_valid hrow
  · intro store item h
    unfold scrapeGaleri24Data sortByWeight at h
    rw [(List.perm_insertionSort (fun a b : PriceItem => a.weight ≤ b.weight)
      (extractGaleri24 store).items).mem_iff] at h
    unfold extractGaleri24 at h
    dsimp only at h
    split at h
    case isFalse => simp at h
    case isTrue =>
      split at h
      case isFalse => simp at h
      case isTrue =>
        split at h
        case isFalse => simp at h
        case isTrue =>
          split at h
          · exact processEntries_valid h
          · simp at h

/-- Witness for C4 at a concrete anekalogam row. -/
theorem extract_validity_witness :
    (⟨1, "gram", 2, 3, "antam"⟩ : PriceItem) ∈ anekalogamExtract [⟨"", [["1", "2", "3"]]⟩] ∧
    (0 : ℚ) < 1 ∧ ((0 : Int) < 2 ∨ (0 : Int) < 3) := by
  have hm : anekalogamExtract [⟨"", [["1", "2", "3"]]⟩] = [⟨1, "gram", 2, 3, "antam"⟩] := by
    with_unfolding_all rfl
  have hmem : (⟨1, "gram", 2, 3, "antam"⟩ : PriceItem) ∈
      anekalogamExtract [⟨"", [["1", "2", "3"]]⟩] := by
    rw [hm]; exact List.mem_singleton_self _
  exact ⟨hmem, extract_validity.1 [⟨"", [["1", "2", "3"]]⟩] ⟨1, "gram", 2, 3, "antam"⟩ hmem⟩

theorem mem_buildPrevMap {l : List StoredRow} {m : List (ℚ × StoredRow)} {w : ℚ}
    {row : StoredRow} (h : (w, row) ∈ buildPrevMap l m) :
    (w, row) ∈ m ∨ (row ∈ l ∧ w = row.weight) := by
  induction l generalizing m with
  | nil =>
    unfold buildPrevMap at h
    exact Or.inl h
  | cons r rest ih =>
    unfold buildPrevMap at h
    split at h
    · rcases ih h with hm | ⟨hr, hw⟩
      · exact Or.inl hm
      · exact Or.inr ⟨List.mem_cons_of_mem _ hr, hw⟩
    · rcases ih h with hm | ⟨hr, hw⟩
      · rcases List.mem_append.mp hm with hm | hm
        · exact Or.inl hm
        · simp only [List.mem_singleton, Prod.mk.injEq] at hm
          exact Or.inr ⟨by rw [hm.2]; exact List.mem_cons_self _ _, by rw [hm.1, hm.2]⟩
      · exact Or.inr ⟨List.mem_cons_of_mem _ hr, hw⟩

/-- C2: every snapshot returned by the prior-price lookup comes from a stored
row of the requested series whose `last_updated` differs from the current
run's — a row carrying the current `last_updated` (or a SQL `NULL`) is never
selected as a comparison basis. -/
theorem getPreviousPrices_self_exclusion (store : List StoredRow) (dbError : Bool)
    (source type : String) (cur : Option String) (w : ℚ) (row : StoredRow)
    (h : (w, row) ∈ getPreviousPrices store dbError source type cur) :
    row.last_updated ≠ cur ∧ row.source = source ∧ row.type = type ∧ w = row.weight := by
  unfold getPreviousPrices at h
  split at h
  · simp at h
  · rcases mem_buildPrevMap h with hm | ⟨hr, hw⟩
    · simp at hm
    · have hr' : row ∈ store.filter (fun r =>
          r.source = source && r.type = type &&
            sqlNeqLastUpdated r.last_updated (cur.getD "")) := by
        unfold orderByScrapedAtDesc at hr
        exact (List.perm_insertionSort _ _).mem_iff.mp hr
      have hpred := List.of_mem_filter hr'
      simp only [Bool.and_eq_true, decide_eq_true_eq] at hpred
      obtain ⟨⟨hsrc, hty⟩, hneq⟩ := hpred
      refine ⟨?_, hsrc, hty, hw⟩
      unfold sqlNeqLastUpdated at hneq
      rcases hlu : row.last_updated with _ | s
      · rw [hlu] at hneq; simp at hneq
      · rw [hlu] at hneq
        simp only [decide_eq_true_eq] at hneq
        rcases cur with _ | c
        · simp
        · simp only [Option.getD_some] at hneq
          simp [hneq]

/-- A stored row sharing the current run's `last_updated`. -/
def rowSameSnapshot : StoredRow :=
  ⟨"anekalogam", "antam", 1, 104000, 94000, some "2026-01-01", 100⟩

/-- An older stored row of the same series. -/
def rowPriorSnapshot : StoredRow :=
  ⟨"anekalogam", "antam", 1, 100000, 90000, some "2025-12-31", 50⟩

/-- Witness for C2: with both a same-`last_updated` row and an older row in
storage, the lookup returns only the older row, whose `last_updated` differs
from the current run's. -/
theorem getPreviousPrices_self_exclusion_witness :
    (1, rowPriorSnapshot) ∈ getPreviousPrices [rowSameSnapshot, rowPriorSnapshot] false
      "anekalogam" "antam" (some "2026-01-01") ∧
    rowPriorSnapshot.last_updated ≠ some "2026-01-01" := by
  have hm : getPreviousPrices [rowSameSnapshot, rowPriorSnapshot] false
      "anekalogam" "antam" (some "2026-01-01") = [(1, rowPriorSnapshot)] := by
    with_unfolding_all rfl
  have hmem : (1, rowPriorSnapshot) ∈ getPreviousPrices [rowSameSnapshot, rowPriorSnapshot]
      false "anekalogam" "antam" (some "2026-01-01") := by
    rw [hm]; exact List.mem_singleton_self _
  exact ⟨hmem, (getPreviousPrices_self_exclusion _ _ _ _ _ _ _ hmem).1⟩

/-- Well-formedness of the `pricesByType` map: every record sits in the group
keyed by its own type. -/
def GroupsWF (gs : List (String × List GoldPriceHistory)) : Prop :=
  ∀ g ∈ gs, ∀ q ∈ g.2, q.type = g.1

theorem addToGroup_wf {gs : List (String × List GoldPriceHistory)}
    {p : GoldPriceHistory} (hwf : GroupsWF gs) : GroupsWF (addToGroup gs p) := by
  induction gs with
  | nil =>
    intro g hg q hq
    simp only [addToGroup, List.mem_singleton] at hg
    subst hg
    simp only [List.mem_singleton] at hq
    subst hq
    rfl
  | cons g0 rest ih =>
    obtain ⟨t, ps⟩ := g0
    intro g hg q hq
    unfold addToGroup at hg
    split at hg
    · rename_i ht
      rcases List.mem_cons.mp hg with rfl | hg
      · rcases List.mem_append.mp hq with hq | hq
        · exact hwf (t, ps) (List.mem_cons_self _ _) q hq
        · simp only [List.mem_singleton] at hq
          subst hq
          exact ht.symm
      · exact hwf g (List.mem_cons_of_mem _ hg) q hq
    · rcases List.mem_cons.mp hg with rfl | hg
      · exact hwf (t, ps) (List.mem_cons_self _ _) q hq
      · have hwf' : GroupsWF rest := fun g' hg' => hwf g' (List.mem_cons_of_mem _ hg')
        exact ih hwf' g hg q hq

theorem foldl_addToGroup_wf (cps : List GoldPriceHistory)
    {gs : List (String × List GoldPriceHistory)} (hwf : GroupsWF gs) :
    GroupsWF (cps.foldl addToGroup gs) := by
  induction cps generalizing gs with
  | nil => exact hwf
  | cons p rest ih => exact ih (addToGroup_wf hwf)

theorem groupByType_types {cps : List GoldPriceHistory} {t : String}
    {ps : List GoldPriceHistory} (hg : (t, ps) ∈ groupByType cps) :
    ∀ p ∈ ps, p.type = t := by
  intro p hp
  exact foldl_addToGroup_wf cps (fun g hg' => by simp at hg') (t, ps) hg p hp

/-- C3: every record produced by `getPricesWithChange` carries its source
record's fields unchanged, and its deltas are exactly `current − prior` when
the prior-price lookup for its type group (keyed by weight, excluding the
group's own `last_updated`) finds a prior snapshot, and `0` when it does not
— no error path exists for a missing prior. -/
theorem getPricesWithChange_delta (store : List StoredRow) (dbError : Bool)
    (source : String) (cps : List GoldPriceHistory) (r : PriceWithChange)
    (h : r ∈ getPricesWithChange store dbError source cps) :
    ∃ t ps p, (t, ps) ∈ groupByType cps ∧ p ∈ ps ∧ p.type = t ∧
      r.toGoldPriceHistory = p ∧
      (match List.lookup p.weight
          (getPreviousPrices store dbError source t (ps.head?.bind (·.last_updated))) with
       | some prev =>
           r.sell_change = p.sell_price - prev.sell_price ∧
           r.buy_change = p.buy_price - prev.buy_price
       | none => r.sell_change = 0 ∧ r.buy_change = 0) := by
  unfold getPricesWithChange at h
  split at h
  · simp at h
  · simp only [List.mem_flatMap] at h
    obtain ⟨⟨t, ps⟩, hg, hr⟩ := h
    dsimp only at hr
    simp only [List.mem_map] at hr
    obtain ⟨p, hp, hr⟩ := hr
    refine ⟨t, ps, p, hg, hp, groupByType_types hg p hp, ?_, ?_⟩
    · rcases hlk : List.lookup p.weight
          (getPreviousPrices store dbError source t (ps.head?.bind (·.last_updated)))
        with _ | prev <;>
        rw [hlk] at hr <;> rw [← hr]
    · rcases hlk : List.lookup p.weight
          (getPreviousPrices store dbError source t (ps.head?.bind (·.last_updated)))
        with _ | prev <;>
        rw [hlk] at hr <;> rw [← hr] <;> exact ⟨rfl, rfl⟩

/-- A stored prior snapshot at `sell_price = 100000`, weight 1 g. -/
def priorRow1g : StoredRow := ⟨"anekalogam", "antam", 1, 100000, 90000, some "2025-12-31", 10⟩

/-- The current 1 g record at `sell_price = 105000`. -/
def current1g : GoldPriceHistory := ⟨"anekalogam", "antam", 1, 105000, 95000, some "2026-01-01"⟩

/-- Witness for C3: the spec's concrete diff example — prior 100000, current
105000 at the same series — yields `sell_change = 5000`. -/
theorem getPricesWithChange_delta_witness :
    getPricesWithChange [priorRow1g] false "anekalogam" [current1g] =
      [{ toGoldPriceHistory := current1g, sell_change := 5000, buy_change := 5000 }] ∧
    (∃ t ps p, (t, ps) ∈ groupByType [current1g] ∧ p ∈ ps ∧ p.type = t ∧
      ({ toGoldPriceHistory := current1g, sell_change := 5000, buy_change := 5000 } :
          PriceWithChange).toGoldPriceHistory = p ∧
      (match List.lookup p.weight
          (getPreviousPrices [priorRow1g] false "anekalogam" t
            (ps.head?.bind (·.last_updated))) with
       | some prev =>
           ({ toGoldPriceHistory := current1g, sell_change := 5000, buy_change := 5000 } :
              PriceWithChange).sell_change = p.sell_price - prev.sell_price ∧
           ({ toGoldPriceHistory := current1g, sell_change := 5000, buy_change := 5000 } :
              PriceWithChange).buy_change = p.buy_price - prev.buy_price
       | none =>
           ({ toGoldPriceHistory := current1g, sell_change := 5000, buy_change := 5000 } :
              PriceWithChange).sell_change = 0 ∧
           ({ toGoldPriceHistory := current1g, sell_change := 5000, buy_change := 5000 } :
              PriceWithChange).buy_change = 0)) := by
  have he : getPricesWithChange [priorRow1g] false "anekalogam" [current1g] =
      [{ toGoldPriceHistory := current1g, sell_change := 5000, buy_change := 5000 }] := by
    with_unfolding_all rfl
  have hmem : ({ toGoldPriceHistory := current1g, sell_change := 5000, buy_change := 5000 } :
      PriceWithChange) ∈ getPricesWithChange [priorRow1g] false "anekalogam" [current1g] := by
    rw [he]; exact List.mem_singleton_self _
  exact ⟨he, getPricesWithChange_delta [priorRow1g] false "anekalogam" [current1g] _ hmem⟩

instance : IsTotal PriceItem (fun a b => a.weight ≤ b.weight) :=
  ⟨fun a b => le_total a.weight b.weight⟩

instance : IsTrans PriceItem (fun a b => a.weight ≤ b.weight) :=
  ⟨fun _ _ _ => le_trans⟩

/-- C10: the galeri24 extractor returns its records sorted by weight in
ascending order, whatever order the price entries appear in the payload: the
final `prices.sort((a, b) => a.weight - b.weight)` runs on every path. -/
theorem galeri24_sorted_by_weight (store : List JVal) (i j : Nat) (hij : i < j)
    (hj : j < (scrapeGaleri24Data store).length) :
    ((scrapeGaleri24Data store).get ⟨i, Nat.lt_trans hij hj⟩).weight ≤
      ((scrapeGaleri24Data store).get ⟨j, hj⟩).weight := by
  have hs : List.Sorted (fun a b : PriceItem => a.weight ≤ b.weight)
      (scrapeGaleri24Data store) := by
    unfold scrapeGaleri24Data sortByWeight
    exact List.sorted_insertionSort _ _
  exact List.pairwise_iff_get.mp hs ⟨i, Nat.lt_trans hij hj⟩ ⟨j, hj⟩ hij

/-- A NUXT payload whose two price entries appear weight-descending (5 g
before 1 g), to exercise the sort. -/
def galSortStore : List JVal :=
  [ .null,
    .obj [("data", .num 2)],
    .obj [("goldPrice", .num 3)],
    .arr [.num 4, .num 9],
    .obj [("denomination", .num 5), ("sellingPrice", .num 6), ("buybackPrice", .num 7),
          ("vendorName", .num 8), ("date", .num 14)],
    .str "5",
    .num 5000000,
    .num 4750000,
    .str "Antam 5g",
    .obj [("denomination", .num 10), ("sellingPrice", .num 11), ("buybackPrice", .num 12),
          ("vendorName", .num 13), ("date", .num 14)],
    .str "1",
    .num 1000000,
    .num 950000,
    .str "UBS Gold",
    .str "2026-01-01" ]

set_option maxRecDepth 200000 in
/-- Witness for C10 on a payload listing 5 g before 1 g. -/
theorem galeri24_sorted_by_weight_witness :
    ((scrapeGaleri24Data galSortStore).get ⟨0, by with_unfolding_all decide⟩).weight ≤
      ((scrapeGaleri24Data galSortStore).get ⟨1, by with_unfolding_all decide⟩).weight :=
  galeri24_sorted_by_weight galSortStore 0 1 (by decide) (by with_unfolding_all decide)

/-- A payload with three price entries: a well-formed 1 g entry, an entry
whose `vendorName` resolves to a (truthy) number, and a well-formed 5 g
entry. -/
def galAbortStore : List JVal :=
  [ .null,
    .obj [("data", .num 2)],
    .obj [("goldPrice", .num 3)],
    .arr [.num 4, .num 9, .num 15],
    .obj [("denomination", .num 5), ("sellingPrice", .num 6), ("buybackPrice", .num 7),
          ("vendorName", .num 8), ("date", .num 14)],
    .str "1",
    .num 1000000,
    .num 950000,
    .str "UBS Gold",
    .obj [("denomination", .num 10), ("sellingPrice", .num 11), ("buybackPrice", .num 12),
          ("vendorName", .num 13), ("date", .num 14)],
    .str "2",
    .num 2000000,
    .num 1900000,
    .num 42,
    .str "2026-01-01",
    .obj [("denomination", .num 16), ("sellingPrice", .num 17), ("buybackPrice", .num 18),
          ("vendorName", .num 19), ("date", .num 14)],
    .str "5",
    .num 5000000,
    .num 4750000,
    .str "Antam 5g" ]

/-- `galAbortStore` with the malformed middle entry removed from the price
array (everything else identical), showing the 5 g entry is well-formed. -/
def galAbortStoreOk : List JVal :=
  galAbortStore.set 3 (.arr [.num 4, .num 15])

set_option maxRecDepth 400000 in
/-- Counterexample to C7 as stated: the malformed middle entry (a numeric
`vendorName`, on which `.toLowerCase()` throws) does not merely skip itself —
the TypeError is caught by the surrounding `try`/`catch` and extraction of
every later entry is lost. The well-formed 5 g entry yields its record when
the malformed entry is absent, but not when it precedes it. -/
theorem galeri24_malformed_vendor_aborts_cex :
    scrapeGaleri24Data galAbortStore = [⟨1, "gram", 1000000, 950000, "ubs"⟩] ∧
    (extractGaleri24 galAbortStore).aborted = true ∧
    scrapeGaleri24Data galAbortStoreOk =
      [⟨1, "gram", 1000000, 950000, "ubs"⟩, ⟨5, "gram", 5000000, 4750000, "antam"⟩] :=
  ⟨by with_unfolding_all rfl, by with_unfolding_all rfl, by with_unfolding_all rfl⟩

/-- C7 (amended): per price entry of the flattened-graph extractor — (a) a
falsy or non-object `priceObj` (in particular (a') an out-of-bounds position
reference) skips only that entry; (b) a missing or falsy resolved
`denomination`/`sellingPrice` skips only that entry; but (c) a resolved
`vendorName` that is truthy and not a string throws a TypeError, which the
surrounding `try`/`catch` turns into an abort: records of earlier entries
survive, the remaining entries are never extracted. -/
theorem galeri24_entry_robustness :
    (∀ (store : List JVal) (i : JVal) (rest : List JVal) (lu : JVal),
      (jsTruthy (galPriceObj store i) && typeofIsObject (galPriceObj store i)) = false →
      processEntries store (i :: rest) lu = processEntries store rest lu) ∧
    (∀ (store : List JVal) (n : Nat) (rest : List JVal) (lu : JVal),
      store.length ≤ n →
      processEntries store (.num n :: rest) lu = processEntries store rest lu) ∧
    (∀ (store : List JVal) (i : JVal) (rest : List JVal) (lu : JVal),
      (jsTruthy (galPriceObj store i) && typeofIsObject (galPriceObj store i)) = true →
      (jsTruthy (galField store i "denomination") &&
        jsTruthy (galField store i "sellingPrice")) = false →
      processEntries store (i :: rest) lu = processEntries store rest lu) ∧
    (∀ (store : List JVal) (i : JVal) (rest : List JVal) (lu : JVal) (e : String),
      (jsTruthy (galPriceObj store i) && typeofIsObject (galPriceObj store i)) = true →
      (jsTruthy (galField store i "denomination") &&
        jsTruthy (galField store i "sellingPrice")) = true →
      vendorToTypeJ (galField store i "vendorName") = .error e →
      processEntries store (i :: rest) lu = ⟨[], lu, true⟩) := by
  have hskip : ∀ (store : List JVal) (i : JVal) (rest : List JVal) (lu : JVal),
      galItemStep store lu i = .ok (none, lu) →
      processEntries store (i :: rest) lu = processEntries store rest lu := by
    intro store i rest lu hstep
    conv_lhs => unfold processEntries
    rw [hstep]
    simp
  refine ⟨?_, ?_, ?_, ?_⟩
  · intro store i rest lu hcond
    refine hskip store i rest lu ?_
    unfold galItemStep
    dsimp only
    rw [hcond]
    rfl
  · intro store n rest lu hn
    have hobj : galPriceObj store (.num n) = .undefined := by
      unfold galPriceObj jsIndex
      have hidx : jsToIndex (.num n) = some n := by
        unfold jsToIndex
        simp [Rat.den_natCast, Rat.num_natCast]
      rw [hidx]
      simp [List.getElem?_eq_none hn]
    refine hskip store (.num n) rest lu ?_
    unfold galItemStep
    dsimp only
    have hcond : (jsTruthy (galPriceObj store (.num n)) &&
        typeofIsObject (galPriceObj store (.num n))) = false := by
      rw [hobj]; rfl
    rw [hcond]
    rfl
  · intro store i rest lu hobj hds
    refine hskip store i rest lu ?_
    unfold galItemStep
    dsimp only
    rw [hobj]
    simp only [if_true]
    rw [hds]
    rfl
  · intro store i rest lu e hobj hds hvend
    conv_lhs => unfold processEntries
    have hstep : galItemStep store lu i = .error e := by
      unfold galItemStep
      dsimp only
      rw [hobj]
      simp only [if_true]
      rw [hds]
      simp only [if_true]
      rw [hvend]
    rw [hstep]

set_option maxRecDepth 100000 in
/-- Witness for the amended C7: a non-index entry, an out-of-bounds position,
an object without price fields (each skipping just itself), and the
numeric-vendor entry (aborting), all against `galAbortStore`. -/
theorem galeri24_entry_robustness_witness :
    processEntries galAbortStore [.str "nope"] .null = processEntries galAbortStore [] .null ∧
    processEntries galAbortStore [.num ((99 : Nat) : ℚ)] .null =
      processEntries galAbortStore [] .null ∧
    processEntries galAbortStore [.num 1] .null = processEntries galAbortStore [] .null ∧
    processEntries galAbortStore [.num 9] .null = ⟨[], .null, true⟩ := by
  refine ⟨?_, ?_, ?_, ?_⟩
  · exact galeri24_entry_robustness.1 galAbortStore (.str "nope") [] .null
      (by with_unfolding_all decide)
  · exact galeri24_entry_robustness.2.1 galAbortStore 99 [] .null (by decide)
  · exact galeri24_entry_robustness.2.2.1 galAbortStore (.num 1) [] .null
      (by with_unfolding_all decide) (by with_unfolding_all decide)
  · exact galeri24_entry_robustness.2.2.2 galAbortStore (.num 9) [] .null
      "TypeError: vendorName.toLowerCase is not a function"
      (by with_unfolding_all decide) (by with_unfolding_all decide)
      (by with_unfolding_all rfl)
